import Mathlib

/-!
Verification of the policy composition and compilation core of django-csp
(src/csp/utils.py and src/csp/conf/), as a shallow embedding.

Python values that can sit in a policy mapping are modelled by `Val`:
`Val.none` is Python `None`, `Val.tok` a scalar (a string or a boolean) and
`Val.list` a `list`/`tuple` of scalars (the two sequence kinds are not
distinguished: every operation in the modelled code treats them alike).
Python `dict`s (insertion ordered, unique keys) are modelled as association
lists with `aget`/`aset`/`apop` mirroring `d[k]`/`d[k] = v`/`d.pop(k)`.

Python mutates some of these dictionaries in place.  The embedding is
state passing: a function that mutates an argument returns the new value of
that argument, and `build_policy_st` additionally returns the final state of
the caller's `config` mapping, so that the in-place updates that
`_append_policies` performs through the alias `csp = config[append_template]`
(src/csp/utils.py line 126, which takes no copy) are observable.

String helpers (`pyLower`, `pyStrip`, `chJoin`, ...) are written over the
character list of the string so that every definition evaluates inside the
kernel; each mirrors the Python string method named in its comment.
-/

/-- Scalar token: a Python string or boolean sitting inside a directive value. -/
inductive Tok
  | str (s : String)
  | b (x : Bool)
deriving DecidableEq, Repr

/-- Directive value: Python `None`, a scalar, or a `list`/`tuple` of scalars. -/
inductive Val
  | none
  | tok (t : Tok)
  | list (ts : List Tok)
deriving DecidableEq, Repr

/-- Policy definition: a Python dict from directive name to value. -/
abbrev Policy := List (String × Val)

/-- Named policy collection: a Python dict from policy name to policy. -/
abbrev PolicyMap := List (String × Policy)

/-- Rendered parts of one policy: dict from directive name to rendered text. -/
abbrev Parts := List (String × String)

/-- Python `d.get(k)` / `d[k]`: value of the first (for a dict: only) binding of `k`. -/
def aget {α : Type} : List (String × α) → String → Option α
  | [], _ => Option.none
  | kv :: rest, k => if kv.1 = k then some kv.2 else aget rest k

/-- Python `d[k] = v`: update the binding of `k` in place, else append it at the end. -/
def aset {α : Type} : List (String × α) → String → α → List (String × α)
  | [], k, v => [(k, v)]
  | kv :: rest, k, v => if kv.1 = k then (k, v) :: rest else kv :: aset rest k v

/-- Python `d.pop(k, default)`, restricted to its effect on `d`: drop the binding of `k`. -/
def apop {α : Type} (d : List (String × α)) (k : String) : List (String × α) :=
  d.filter (fun kv => kv.1 ≠ k)

/-- Python `list(d)`: the keys, in insertion order. -/
def akeys {α : Type} (d : List (String × α)) : List String := d.map (fun kv => kv.1)

/-- Python `k in d`. -/
def hasKey {α : Type} (d : List (String × α)) (k : String) : Bool := (aget d k).isSome

/-- Python `str.lower()`. -/
def pyLower (s : String) : String := String.mk (s.data.map Char.toLower)

/-- Python `str.upper()`. -/
def pyUpper (s : String) : String := String.mk (s.data.map Char.toUpper)

/-- Python `str.replace(a, b)` for one-character `a` and `b` (the only calls made). -/
def pyReplaceChar (s : String) (a b : Char) : String :=
  String.mk (s.data.map (fun c => if c = a then b else c))

/-- Python `s[n:]`. -/
def pyDrop (s : String) (n : Nat) : String := String.mk (s.data.drop n)

/-- Python `c in s` for a one-character needle. -/
def pyContains (s : String) (c : Char) : Bool := s.data.contains c

/-- Python `str.strip()`: whitespace removed from both ends. -/
def pyStrip (s : String) : String :=
  String.mk (((s.data.dropWhile Char.isWhitespace).reverse.dropWhile Char.isWhitespace).reverse)

/-- Python `sep.join(parts)`. -/
def chJoin (sep : String) : List String → String
  | [] => ""
  | x :: xs => xs.foldl (fun a b => a ++ sep ++ b) x

/-- Python `force_str` on a scalar token (`str(x)` for the values that occur). -/
def pyStr : Tok → String
  | Tok.str s => s
  | Tok.b true => "True"
  | Tok.b false => "False"

/-- Python truthiness of a directive value (`if value:`). -/
def Val.truthy : Val → Bool
  | Val.none => false
  | Val.tok (Tok.str s) => !s.isEmpty
  | Val.tok (Tok.b x) => x
  | Val.list ts => !ts.isEmpty

/-- Elements of `tuple(v)` when `v` is a sequence, and of the wrap `(v,)` when it is a
scalar.  For `Val.none` Python would raise a TypeError; that case is unreachable in
the code paths below because every caller tests `v is not None` first. -/
def Val.elems : Val → List Tok
  | Val.none => []
  | Val.tok t => [t]
  | Val.list ts => ts

/-- Iteration of a directive value as Python iterates the object: a list or
tuple yields its items and a string yields its characters.  Booleans and
`None` are not iterable or not sized (TypeError); those cases are unreachable
under the normalization hypotheses of the theorems below and are mapped to
the empty sequence. -/
def Val.iter : Val → List Tok
  | Val.list ts => ts
  | Val.tok (Tok.str s) => s.data.map (fun c => Tok.str (String.mk [c]))
  | Val.tok (Tok.b _) => []
  | Val.none => []

/-- Shallow embedding of `defaults.POLICY_DEFINITIONS['default']`
(src/csp/conf/defaults.py lines 7 to 46). -/
def default_policy : Policy := [
  ("child-src", Val.none), ("connect-src", Val.none),
  ("default-src", Val.list [Tok.str "'self'"]),
  ("script-src", Val.none), ("script-src-attr", Val.none), ("script-src-elem", Val.none),
  ("object-src", Val.none), ("style-src", Val.none), ("style-src-attr", Val.none),
  ("style-src-elem", Val.none), ("font-src", Val.none), ("frame-src", Val.none),
  ("img-src", Val.none), ("manifest-src", Val.none), ("media-src", Val.none),
  ("prefetch-src", Val.none), ("worker-src", Val.none),
  ("base-uri", Val.none), ("plugin-types", Val.none), ("sandbox", Val.none),
  ("form-action", Val.none), ("frame-ancestors", Val.none), ("navigate-to", Val.none),
  ("report-uri", Val.none), ("report-to", Val.none), ("require-sri-for", Val.none),
  ("upgrade-insecure-requests", Val.tok (Tok.b false)),
  ("block-all-mixed-content", Val.tok (Tok.b false)),
  ("report_only", Val.tok (Tok.b false)),
  ("include_nonce_in", Val.list [Tok.str "default-src"])]

/-- `DIRECTIVES = set(defaults.POLICY_DEFINITIONS['default'])` (src/csp/conf/__init__.py
line 3), kept as the ordered key list of the default policy. -/
def DIRECTIVES : List String := akeys default_policy

/-- `PSEUDO_DIRECTIVES = {d for d in DIRECTIVES if '_' in d}` (src/csp/conf/__init__.py
line 4). -/
def PSEUDO_DIRECTIVES : List String := DIRECTIVES.filter (fun d => pyContains d '_')

/-- Python sentinel argument `no_value` of `setting_to_directive`: either absent or a value. -/
inductive PyOptVal
  | no_value
  | val (v : Val)
deriving DecidableEq, Repr

/-- Name computation of `setting_to_directive` (src/csp/conf/__init__.py lines 10
to 13): strip the prefix, lowercase, and turn underscores into hyphens unless the
name is a pseudo-directive.  `setting_to_directive` then checks
`assert setting in DIRECTIVES` (an AssertionError is the `Except.error` case) and,
when a value is supplied, wraps a scalar string value into a one-element list. -/
def settingDirName (setting pfx : String) : String :=
  let s := pyLower (pyDrop setting pfx.length)
  if PSEUDO_DIRECTIVES.contains s then s else pyReplaceChar s '_' '-'

/-- Shallow embedding of the body of `setting_to_directive` after the name
computation: the assert and the value wrapping. -/
def setting_to_directive (setting pfx : String) (value : PyOptVal) :
    Except String (String × PyOptVal) :=
  if DIRECTIVES.contains (settingDirName setting pfx) then
    match value with
    | PyOptVal.no_value => Except.ok (settingDirName setting pfx, PyOptVal.no_value)
    | PyOptVal.val (Val.tok (Tok.str x)) =>
        Except.ok (settingDirName setting pfx, PyOptVal.val (Val.list [Tok.str x]))
    | PyOptVal.val v => Except.ok (settingDirName setting pfx, PyOptVal.val v)
  else Except.error "AssertionError"

/-- Shallow embedding of `directive_to_setting` (src/csp/conf/__init__.py lines 23
to 28): prepend the prefix to the upper-cased, hyphen-to-underscore name. -/
def directive_to_setting (directive pfx : String) : String :=
  pfx ++ pyUpper (pyReplaceChar directive '-' '_')

/-- One iteration of the loop of `_update_policy` (src/csp/utils.py lines 135 to 147)
for the update item `(k, v)`: skip unset values, overwrite pseudo-directives outright,
and for content directives wrap a scalar into a one-element sequence, then either set
the key (when `csp.get(k) is None`, that is the key is absent or bound to `None`) or
concatenate onto the existing sequence (`csp[k] += tuple(v)`; Python would raise a
TypeError if the existing value were a scalar, a case the theorems below exclude). -/
def _update_policy_step (csp : Policy) (k : String) (v : Val) : Policy :=
  if v = Val.none then csp
  else if PSEUDO_DIRECTIVES.contains k then aset csp k v
  else
    match aget csp k with
    | Option.none => aset csp k (Val.list v.elems)
    | some Val.none => aset csp k (Val.list v.elems)
    | some old => aset csp k (Val.list (old.elems ++ v.elems))

/-- Shallow embedding of `_update_policy` (src/csp/utils.py lines 134 to 147).  The
Python function mutates `csp` in place; here the updated policy is returned. -/
def _update_policy (csp update : Policy) : Policy :=
  update.foldl (fun acc kv => _update_policy_step acc kv.1 kv.2) csp

/-- Key list iterated by `_replace_policy` (src/csp/utils.py line 152,
`set(chain(csp, replace))`).  Python iterates this set in an unspecified order; the
embedding fixes the order to the keys of `csp` followed by the new keys of
`replace`.  Every theorem proved about `_replace_policy` concerns key membership
and per-key values only, which do not depend on the order chosen. -/
def replaceKeys (csp replace : Policy) : List String :=
  akeys csp ++ (akeys replace).filter (fun k => !(akeys csp).contains k)

/-- Value chosen by `_replace_policy` for key `k`: `replace[k] if k in replace else
csp[k]` (src/csp/utils.py lines 153 to 156). -/
def replaceChoose (csp replace : Policy) (k : String) : Val :=
  match aget replace k with
  | some v => v
  | Option.none => (aget csp k).getD Val.none

/-- Body of the loop of `_replace_policy` for key `k` with chosen value `v`
(src/csp/utils.py lines 157 to 164): unset values are dropped, pseudo-directives
are stored raw, and content values are copied (`copy.copy`) with scalars wrapped
into one-element sequences. -/
def replaceStep (acc : Policy) (k : String) (v : Val) : Policy :=
  if v = Val.none then acc
  else if PSEUDO_DIRECTIVES.contains k then aset acc k v
  else aset acc k (Val.list v.elems)

/-- Shallow embedding of `_replace_policy` (src/csp/utils.py lines 150 to 165):
a fresh policy built from the union of the keys of `csp` and `replace`. -/
def _replace_policy (csp replace : Policy) : Policy :=
  (replaceKeys csp replace).foldl
    (fun acc k => replaceStep acc k (replaceChoose csp replace k)) []

/-- State threaded through `_append_policies` (src/csp/utils.py lines 107 to 131):
the `policies` dict being extended, the caller's `config` dict (updated whenever the
code writes through the alias it takes into it), and the aliases created so far:
`(key, t)` records that `policies[key]` and `config[t]` are the same Python object
after the line `csp = config[append_template]` ran for `key`. -/
structure AppendState where
  pols : PolicyMap
  cfg : PolicyMap
  aliases : List (String × String)
deriving DecidableEq, Repr

/-- One iteration of the loop of `_append_policies` (src/csp/utils.py lines 110 to
131) for the update item `(key, append_csp)`, with `tmpl` the value of
`getattr(settings, 'CSP_UPDATE_TEMPLATE', defaults.UPDATE_TEMPLATE)`.  The branches
mirror the source:
* `key in policies`: skip;
* `key in config and not append_csp`: `csp = config[key].copy()` — a fresh dict
  (the shallow copy still shares sequence objects with `config`, an aliasing
  channel the immutable `Val` model does not need to track for the theorems below);
* template `None`: `csp = {}`;
* template in `config`: `csp = config[append_template]` with NO copy, so the
  in-place `_update_policy(csp, append_csp)` that follows also rewrites the policy
  held by `config` — reflected here by updating `cfg` and recording the alias;
* otherwise: `csp = defaults.POLICIES[append_template]`, and `defaults.POLICIES`
  is the Python list `['default']` (src/csp/conf/defaults.py line 1), so indexing
  it with a string name raises `TypeError` whatever the name is. -/
def _append_policies_step (tmpl : Option String) (st : AppendState) (entry : String × Policy) :
    Except String AppendState :=
  let key := entry.1
  let append_csp := entry.2
  if hasKey st.pols key then Except.ok st
  else if hasKey st.cfg key && append_csp.isEmpty then
    Except.ok { st with pols := aset st.pols key (_update_policy ((aget st.cfg key).getD []) append_csp) }
  else
    match tmpl with
    | Option.none =>
        Except.ok { st with pols := aset st.pols key (_update_policy [] append_csp) }
    | some t =>
        if hasKey st.cfg t then
          let csp := _update_policy ((aget st.cfg t).getD []) append_csp
          Except.ok { pols := aset st.pols key csp,
                      cfg := aset st.cfg t csp,
                      aliases := st.aliases ++ [(key, t)] }
        else Except.error "TypeError: list indices must be integers or slices, not str"

/-- Shallow embedding of `_append_policies` (src/csp/utils.py lines 107 to 131). -/
def _append_policies (policies append config : PolicyMap) (tmpl : Option String) :
    Except String AppendState :=
  append.foldlM (_append_policies_step tmpl) (AppendState.mk policies config [])

/-- Main rendering loop of `_compile_policy` (src/csp/utils.py lines 182 to 196):
a value whose first element is the boolean `True` renders as the empty string, one
whose first element is `False` is skipped, and any other value renders as its
space-joined elements.  (The `child-src` branch only emits a deprecation warning
and has no effect on the result.) -/
def compileMainStep (parts : Parts) (kv : String × Val) : Parts :=
  match kv.2.iter with
  | Tok.b true :: _ => aset parts kv.1 ""
  | Tok.b false :: _ => parts
  | ts => aset parts kv.1 (chJoin " " (ts.map pyStr))

/-- Fold of `compileMainStep` over the policy, in key order. -/
def compileMainParts (csp : Policy) : Parts := csp.foldl compileMainStep []

/-- Parts of one policy after the main loop and the `report-uri` re-insertion of
`_compile_policy` (src/csp/utils.py lines 169 to 200): the three control keys are
popped (their defaults are the entries of `defaults.POLICY_DEFINITIONS['default']`),
the remaining directives are rendered, and a truthy `report-uri` value is stringified
token by token (`map(force_str, report_uri)`) and re-inserted space-joined. -/
def compilePartsBase (csp : Policy) : Parts :=
  let report_uri := (aget csp "report-uri").getD ((aget default_policy "report-uri").getD Val.none)
  let csp2 := apop (apop (apop csp "report-uri") "report_only") "include_nonce_in"
  let parts := compileMainParts csp2
  if report_uri.truthy then aset parts "report-uri" (chJoin " " (report_uri.iter.map pyStr))
  else parts

/-- Nonce injection for one name of the `include_nonce_in` list (src/csp/utils.py
lines 203 to 206): append the quoted nonce token to the current rendered value of
that directive (empty string when absent) and strip surrounding whitespace. -/
def nonceStep (n : String) (ps : Parts) (sec : String) : Parts :=
  aset ps sec (pyStrip (((aget ps sec).getD "") ++ " " ++ ("'nonce-" ++ n ++ "'")))

/-- Parts of one policy after all rewriting steps of `_compile_policy`
(src/csp/utils.py lines 169 to 206): `compilePartsBase`, then, when a non-empty
nonce is supplied, for every name in the resolved `include_nonce_in` list the
current rendered value (empty string when absent) gets the quoted nonce token
appended and the result stripped of surrounding whitespace. -/
def compileParts (csp : Policy) (nonce : Option String) : Parts :=
  let include_nonce_in :=
    (aget csp "include_nonce_in").getD
      ((aget default_policy "include_nonce_in").getD Val.none)
  let parts := compilePartsBase csp
  match nonce with
  | Option.none => parts
  | some n =>
      if n = "" then parts
      else (include_nonce_in.iter.map pyStr).foldl (nonceStep n) parts

/-- State of a policy dict after the three `pop` calls at the top of
`_compile_policy` (src/csp/utils.py lines 169 to 180) mutated it in place. -/
def compileResidual (csp : Policy) : Policy :=
  apop (apop (apop csp "report-uri") "report_only") "include_nonce_in"

/-- Shallow embedding of `_compile_policy` (src/csp/utils.py lines 168 to 212):
the rendered parts joined as `"<name> <value>"` segments (value-less names keep no
trailing space) separated by `"; "`, paired with the popped `report_only` value
(default `False`), which Python returns unchanged. -/
def _compile_policy (csp : Policy) (nonce : Option String) : String × Val :=
  let report_only :=
    (aget csp "report_only").getD ((aget default_policy "report_only").getD Val.none)
  (chJoin "; " ((compileParts csp nonce).map (fun kv => pyStrip (kv.1 ++ " " ++ kv.2))),
   report_only)

/-- Argument shapes accepted by `build_policy` for `config`, `update` and `replace`:
Python `None`, a single flat policy definition, or a named mapping of policies.
`_normalize_config` (src/csp/utils.py lines 56 to 68) tells the last two apart by
testing whether the first value is a dict; the inductive tag records the same
distinction. -/
inductive ConfigArg
  | none
  | flat (p : Policy)
  | named (m : PolicyMap)
deriving DecidableEq, Repr

/-- Shallow embedding of `_normalize_config` (src/csp/utils.py lines 56 to 68):
`None` becomes `{}`, an empty mapping is returned as is, a flat policy is wrapped
under the name `'default'`, and a named mapping passes through. -/
def _normalize_config : ConfigArg → PolicyMap
  | ConfigArg.none => []
  | ConfigArg.flat p => if p.isEmpty then [] else [("default", p)]
  | ConfigArg.named m => m

/-- Shallow embedding of `from_settings` (src/csp/utils.py lines 36 to 53) for a
host with no CSP settings of its own: `policies` falls back to
`defaults.POLICIES = ['default']`, the custom definitions to `{'default': {}}`,
the legacy layer finds no legacy settings, and the result is the default policy
under the name `'default'`. -/
def from_settings : PolicyMap := [("default", default_policy)]

/-- An entry of the `order` argument of `build_policy`: a policy name or an
integer position. -/
inductive OrderKey
  | name (s : String)
  | idx (n : Nat)
deriving DecidableEq, Repr, BEq

/-- Lookup `policies[index_or_name]` performed by `build_policy` (src/csp/utils.py
line 100).  `policies` is an OrderedDict keyed by the policy names (strings), and
subscripting a dict is a key lookup, never positional: a name selects its policy or
raises `KeyError`, and an integer entry always raises `KeyError` because no key is
an integer.  (The Python KeyError message carries the key; the embedding keeps a
fixed message.) -/
def orderLookup (pols : PolicyMap) : OrderKey → Except String Policy
  | OrderKey.name s =>
      match aget pols s with
      | some p => Except.ok p
      | Option.none => Except.error ("KeyError: " ++ s)
  | OrderKey.idx _ => Except.error "KeyError"

/-- Policy names whose policy objects are compiled by the final list comprehension
of `build_policy` (src/csp/utils.py line 104): all of them when no order is given
or the order is empty, else the names the order selects. -/
def orderSelects (order : Option (List OrderKey)) (k : String) : Bool :=
  match order with
  | Option.none => true
  | some ord => if ord.isEmpty then true else ord.contains (OrderKey.name k)

/-- Shallow embedding of `build_policy` (src/csp/utils.py lines 71 to 104) with the
host settings at their defaults (`CSP_UPDATE_TEMPLATE` unset, so the append template
is `'default'`).  The first component of the result is the list of
`(policy_string, report_only)` pairs the Python function returns.  The second
component is the final state of the caller's `config` mapping: `_append_policies`
aliases `config[append_template]` (no copy is taken on src/csp/utils.py line 126),
so the in-place `_update_policy` call and, for compiled policies, the three `pop`
calls of `_compile_policy` write through into `config`; the recorded aliases replay
those writes onto the returned config. -/
def build_policy_st (config : Option ConfigArg) (update replace : ConfigArg)
    (nonce : Option String) (order : Option (List OrderKey)) :
    Except String (List (String × Val) × PolicyMap) := do
  let config2 : PolicyMap :=
    match config with
    | Option.none => from_settings
    | some c => _normalize_config c
  let update2 := _normalize_config update
  let replace2 := _normalize_config replace
  let basePols := config2.foldl
    (fun pols nmpol =>
      let newp := _replace_policy nmpol.2 ((aget replace2 nmpol.1).getD [])
      let newp :=
        match aget update2 nmpol.1 with
        | some u => _update_policy newp u
        | Option.none => newp
      aset pols nmpol.1 newp)
    []
  let st ← _append_policies basePols update2 config2 (some "default")
  let selected ←
    match order with
    | some ord =>
        if ord.isEmpty then Except.ok (st.pols.map (fun kv => kv.2))
        else ord.mapM (orderLookup st.pols)
    | Option.none => Except.ok (st.pols.map (fun kv => kv.2))
  let results := selected.map (fun csp => _compile_policy csp nonce)
  let cfgAfter := st.aliases.foldl
    (fun cfg al =>
      if orderSelects order al.1 then
        match aget st.pols al.1 with
        | some p => aset cfg al.2 (compileResidual p)
        | Option.none => cfg
      else cfg)
    st.cfg
  Except.ok (results, cfgAfter)

/-- Shallow embedding of `build_policy` (src/csp/utils.py lines 71 to 104): the
list of `(policy_string, report_only)` pairs. -/
def build_policy (config : Option ConfigArg) (update replace : ConfigArg)
    (nonce : Option String) (order : Option (List OrderKey)) :
    Except String (List (String × Val)) :=
  (build_policy_st config update replace nonce order).map (fun r => r.1)

/-! Helper lemmas about the dict model. -/

theorem aget_aset_self {α : Type} (d : List (String × α)) (k : String) (v : α) :
    aget (aset d k v) k = some v := by
  induction d with
  | nil => simp [aset, aget]
  | cons kv rest ih =>
      by_cases h : kv.1 = k
      · simp [aset, h, aget]
      · simp [aset, h, aget, ih]

theorem aget_aset_ne {α : Type} (d : List (String × α)) (k j : String) (v : α)
    (h : j ≠ k) : aget (aset d k v) j = aget d j := by
  have hkj : ¬ k = j := fun hh => h hh.symm
  induction d with
  | nil => simp [aset, aget, hkj]
  | cons kv rest ih =>
      by_cases hk : kv.1 = k
      · have hj : ¬ kv.1 = j := by rw [hk]; exact hkj
        simp [aset, hk, aget, hkj, hj]
      · by_cases hj : kv.1 = j <;> simp [aset, hk, aget, hj, ih, h]

theorem aget_apop {α : Type} (d : List (String × α)) (k j : String) :
    aget (apop d k) j = (if j = k then Option.none else aget d j) := by
  induction d with
  | nil => simp [apop, aget]
  | cons kv rest ih =>
      have hrest : aget (apop rest k) j = if j = k then Option.none else aget rest j := ih
      by_cases hk : kv.1 = k
      · have hdrop : apop (kv :: rest) k = apop rest k := by
          simp [apop, List.filter_cons, hk]
        rw [hdrop, hrest]
        by_cases hj : j = k
        · simp [hj]
        · have hkvj : ¬ kv.1 = j := by rw [hk]; exact fun hh => hj hh.symm
          simp [hj, aget, hkvj]
      · have hkeep : apop (kv :: rest) k = kv :: apop rest k := by
          simp [apop, List.filter_cons, hk]
        rw [hkeep]
        by_cases hj : kv.1 = j
        · have hjk : ¬ j = k := by rw [← hj]; exact hk
          simp [aget, hj, hjk]
        · simp [aget, hj, hrest]

theorem aget_eq_none_iff {α : Type} (d : List (String × α)) (k : String) :
    aget d k = Option.none ↔ k ∉ akeys d := by
  induction d with
  | nil => simp [aget, akeys]
  | cons kv rest ih =>
      by_cases h : kv.1 = k
      · simp [aget, h, akeys]
      · have hk : ¬ k = kv.1 := fun hh => h hh.symm
        simp [aget, h, akeys, hk, ih]

theorem mem_of_aget_eq_some {α : Type} (d : List (String × α)) (k : String) (v : α)
    (h : aget d k = some v) : (k, v) ∈ d := by
  induction d with
  | nil => simp [aget] at h
  | cons kv rest ih =>
      by_cases hk : kv.1 = k
      · simp [aget, hk] at h
        have : (k, v) = kv := Prod.ext_iff.mpr ⟨hk.symm, h.symm⟩
        rw [this]
        exact List.mem_cons_self _ _
      · simp [aget, hk] at h
        exact List.mem_cons_of_mem _ (ih h)

/-! Generic lemmas about folds whose every step writes at most the key of the
element being folded. -/

theorem aget_foldl_preserve {α σ : Type} (f : List (String × α) → σ → List (String × α))
    (key : σ → String)
    (hf : ∀ acc x j, j ≠ key x → aget (f acc x) j = aget acc j) :
    ∀ (l : List σ) (acc : List (String × α)) (j : String),
      j ∉ l.map key → aget (l.foldl f acc) j = aget acc j := by
  intro l
  induction l with
  | nil => intro acc j _; rfl
  | cons y ys ih =>
      intro acc j hj
      rw [List.map_cons] at hj
      have hj1 : j ≠ key y := fun hh => hj (by rw [hh]; exact List.mem_cons_self _ _)
      have hj2 : j ∉ ys.map key := fun hh => hj (List.mem_cons_of_mem _ hh)
      rw [List.foldl_cons, ih (f acc y) j hj2, hf acc y j hj1]

theorem aget_foldl_write {α σ : Type} (f : List (String × α) → σ → List (String × α))
    (key : σ → String)
    (hf : ∀ acc x j, j ≠ key x → aget (f acc x) j = aget acc j)
    (hf2 : ∀ acc1 acc2 x, aget acc1 (key x) = aget acc2 (key x) →
      aget (f acc1 x) (key x) = aget (f acc2 x) (key x)) :
    ∀ (l : List σ) (acc : List (String × α)) (x : σ),
      (l.map key).Nodup → x ∈ l →
      aget (l.foldl f acc) (key x) = aget (f acc x) (key x) := by
  intro l
  induction l with
  | nil => intro acc x _ hx; exact absurd hx (List.not_mem_nil x)
  | cons y ys ih =>
      intro acc x hnd hx
      rw [List.map_cons] at hnd
      have hnd1 : key y ∉ ys.map key := (List.nodup_cons.mp hnd).1
      have hnd2 : (ys.map key).Nodup := (List.nodup_cons.mp hnd).2
      rw [List.foldl_cons]
      by_cases hks : key y = key x
      · have hnotin : key x ∉ ys.map key := by rw [← hks]; exact hnd1
        rw [aget_foldl_preserve f key hf ys (f acc y) (key x) hnotin]
        rcases List.mem_cons.mp hx with h1 | h1
        · rw [h1]
        · exact absurd (List.mem_map_of_mem key h1) hnotin
      · have h1 : x ∈ ys := by
          rcases List.mem_cons.mp hx with h | h
          · exact absurd (congrArg key h.symm) hks
          · exact h
        rw [ih (f acc y) x hnd2 h1]
        exact hf2 (f acc y) acc x (hf acc y (key x) (fun hh => hks hh.symm))

/-! Characterization lemmas for the update, replace, render and nonce folds. -/

theorem update_step_ne (acc : Policy) (k : String) (v : Val) (j : String) (hj : j ≠ k) :
    aget (_update_policy_step acc k v) j = aget acc j := by
  unfold _update_policy_step
  split
  · rfl
  · split
    · exact aget_aset_ne _ _ _ _ hj
    · split <;> exact aget_aset_ne _ _ _ _ hj

theorem update_step_congr (acc1 acc2 : Policy) (k : String) (v : Val)
    (h : aget acc1 k = aget acc2 k) :
    aget (_update_policy_step acc1 k v) k = aget (_update_policy_step acc2 k v) k := by
  unfold _update_policy_step
  by_cases h1 : v = Val.none
  · simp [h1, h]
  · by_cases h2 : k ∈ PSEUDO_DIRECTIVES
    · simp [h1, h2, aget_aset_self]
    · simp [h1, h2]
      rw [← h]
      cases hcs : aget acc1 k with
      | none => simp [aget_aset_self]
      | some old => cases old <;> simp [aget_aset_self]

theorem update_aget (csp upd : Policy) (k : String) (hnd : (akeys upd).Nodup) :
    aget (_update_policy csp upd) k =
      (match aget upd k with
       | Option.none => aget csp k
       | some v => aget (_update_policy_step csp k v) k) := by
  cases hu : aget upd k with
  | none =>
      have hnot : k ∉ upd.map (fun kv => kv.1) := by
        have := (aget_eq_none_iff upd k).mp hu
        simpa [akeys] using this
      exact aget_foldl_preserve _ _ (fun acc x j hj => update_step_ne acc x.1 x.2 j hj)
        upd csp k hnot
  | some v =>
      have hmem : (k, v) ∈ upd := mem_of_aget_eq_some upd k v hu
      have hw := aget_foldl_write (fun acc kv => _update_policy_step acc kv.1 kv.2)
        (fun kv => kv.1)
        (fun acc x j hj => update_step_ne acc x.1 x.2 j hj)
        (fun a1 a2 x hh => update_step_congr a1 a2 x.1 x.2 hh)
        upd csp (k, v) (by simpa [akeys] using hnd) hmem
      simpa using hw

theorem replace_step_ne (acc : Policy) (k : String) (v : Val) (j : String) (hj : j ≠ k) :
    aget (replaceStep acc k v) j = aget acc j := by
  unfold replaceStep
  split
  · rfl
  · split <;> exact aget_aset_ne _ _ _ _ hj

theorem replace_step_self (acc : Policy) (k : String) (v : Val) :
    aget (replaceStep acc k v) k =
      (if v = Val.none then aget acc k
       else if k ∈ PSEUDO_DIRECTIVES then some v
       else some (Val.list v.elems)) := by
  by_cases h1 : v = Val.none
  · simp [replaceStep, h1]
  · by_cases h2 : k ∈ PSEUDO_DIRECTIVES <;>
      simp [replaceStep, h1, h2, aget_aset_self]

theorem mem_replaceKeys (csp rep : Policy) (k : String) :
    k ∈ replaceKeys csp rep ↔ (k ∈ akeys csp ∨ k ∈ akeys rep) := by
  unfold replaceKeys
  constructor
  · intro h
    rcases List.mem_append.mp h with h | h
    · exact Or.inl h
    · exact Or.inr (List.mem_of_mem_filter h)
  · intro h
    by_cases hc : k ∈ akeys csp
    · exact List.mem_append.mpr (Or.inl hc)
    · rcases h with h | h
      · exact absurd h hc
      · exact List.mem_append.mpr (Or.inr (List.mem_filter.mpr ⟨h, by simp [hc]⟩))

theorem replaceKeys_nodup (csp rep : Policy)
    (h1 : (akeys csp).Nodup) (h2 : (akeys rep).Nodup) :
    (replaceKeys csp rep).Nodup := by
  unfold replaceKeys
  refine List.Nodup.append h1 (h2.filter _) ?_
  intro a ha hb
  have hcon := (List.mem_filter.mp hb).2
  simp at hcon
  exact hcon ha

theorem replace_aget (csp rep : Policy) (k : String)
    (h1 : (akeys csp).Nodup) (h2 : (akeys rep).Nodup) :
    aget (_replace_policy csp rep) k =
      (if k ∈ replaceKeys csp rep then
        (if replaceChoose csp rep k = Val.none then Option.none
         else if k ∈ PSEUDO_DIRECTIVES then some (replaceChoose csp rep k)
         else some (Val.list (replaceChoose csp rep k).elems))
       else Option.none) := by
  by_cases hk : k ∈ replaceKeys csp rep
  · rw [if_pos hk]
    have hw := aget_foldl_write (fun acc j => replaceStep acc j (replaceChoose csp rep j))
      (fun s => s)
      (fun acc x j hj => replace_step_ne acc x _ j hj)
      (fun a1 a2 x hh => by
        rw [replace_step_self, replace_step_self]
        by_cases hv : replaceChoose csp rep x = Val.none
        · simp [hv, hh]
        · simp [hv])
      (replaceKeys csp rep) [] k
      (by simpa using replaceKeys_nodup csp rep h1 h2) hk
    rw [show _replace_policy csp rep =
        (replaceKeys csp rep).foldl (fun acc j => replaceStep acc j (replaceChoose csp rep j)) []
      from rfl, hw, replace_step_self]
    by_cases hv : replaceChoose csp rep k = Val.none
    · simp [hv, aget]
    · simp [hv]
  · rw [if_neg hk]
    have hp := aget_foldl_preserve (fun acc j => replaceStep acc j (replaceChoose csp rep j))
      (fun s => s)
      (fun acc x j hj => replace_step_ne acc x _ j hj)
      (replaceKeys csp rep) [] k (by simpa using hk)
    simpa [aget] using hp

theorem mainParts_step_ne (acc : Parts) (kv : String × Val) (j : String) (hj : j ≠ kv.1) :
    aget (compileMainStep acc kv) j = aget acc j := by
  unfold compileMainStep
  split
  · exact aget_aset_ne _ _ _ _ hj
  · rfl
  · exact aget_aset_ne _ _ _ _ hj

theorem mainParts_step_congr (a1 a2 : Parts) (kv : String × Val)
    (h : aget a1 kv.1 = aget a2 kv.1) :
    aget (compileMainStep a1 kv) kv.1 = aget (compileMainStep a2 kv) kv.1 := by
  unfold compileMainStep
  split
  · simp [aget_aset_self]
  · exact h
  · simp [aget_aset_self]

theorem mainParts_aget (csp : Policy) (k : String) (hnd : (akeys csp).Nodup) :
    aget (compileMainParts csp) k =
      (match aget csp k with
       | Option.none => Option.none
       | some v =>
         match v.iter with
         | Tok.b true :: _ => some ""
         | Tok.b false :: _ => Option.none
         | _ => some (chJoin " " (v.iter.map pyStr))) := by
  cases hu : aget csp k with
  | none =>
      have hnot : k ∉ csp.map (fun kv => kv.1) := by
        have := (aget_eq_none_iff csp k).mp hu
        simpa [akeys] using this
      have hp := aget_foldl_preserve compileMainStep (fun kv => kv.1)
        (fun acc x j hj => mainParts_step_ne acc x j hj) csp [] k hnot
      simpa [compileMainParts, aget] using hp
  | some v =>
      have hmem : (k, v) ∈ csp := mem_of_aget_eq_some csp k v hu
      have hw := aget_foldl_write compileMainStep (fun kv => kv.1)
        (fun acc x j hj => mainParts_step_ne acc x j hj)
        (fun a1 a2 x hh => mainParts_step_congr a1 a2 x hh)
        csp [] (k, v) (by simpa [akeys] using hnd) hmem
      rw [show compileMainParts csp = csp.foldl compileMainStep [] from rfl]
      rw [hw]
      unfold compileMainStep
      cases hv : v.iter with
      | nil => simp [hv, aget_aset_self]
      | cons hd tl =>
          cases hd with
          | str t => simp [hv, aget_aset_self]
          | b x => cases x <;> simp [hv, aget, aget_aset_self]

theorem nonceStep_ne (n : String) (ps : Parts) (sec j : String) (hj : j ≠ sec) :
    aget (nonceStep n ps sec) j = aget ps j := aget_aset_ne _ _ _ _ hj

theorem nonceStep_self (n : String) (ps : Parts) (sec : String) :
    aget (nonceStep n ps sec) sec =
      some (pyStrip (((aget ps sec).getD "") ++ " " ++ ("'nonce-" ++ n ++ "'"))) :=
  aget_aset_self _ _ _

theorem akeys_apop_nodup {α : Type} (d : List (String × α)) (k : String)
    (h : (akeys d).Nodup) : (akeys (apop d k)).Nodup := by
  unfold akeys apop
  exact List.Nodup.sublist (List.Sublist.map _ (List.filter_sublist d)) h

theorem aget_compileResidual (csp : Policy) (k : String)
    (h1 : k ≠ "report-uri") (h2 : k ≠ "report_only") (h3 : k ≠ "include_nonce_in") :
    aget (compileResidual csp) k = aget csp k := by
  unfold compileResidual
  rw [aget_apop, if_neg h3, aget_apop, if_neg h2, aget_apop, if_neg h1]

theorem residual_nodup (csp : Policy) (h : (akeys csp).Nodup) :
    (akeys (compileResidual csp)).Nodup := by
  unfold compileResidual
  exact akeys_apop_nodup _ _ (akeys_apop_nodup _ _ (akeys_apop_nodup _ _ h))

theorem residual_no_report_uri (csp : Policy) :
    aget (compileResidual csp) "report-uri" = Option.none := by
  unfold compileResidual
  rw [aget_apop, if_neg (by decide), aget_apop, if_neg (by decide), aget_apop,
    if_pos rfl]

theorem partsBase_other (csp : Policy) (k : String) (h1 : k ≠ "report-uri") :
    aget (compilePartsBase csp) k = aget (compileMainParts (compileResidual csp)) k := by
  unfold compilePartsBase compileResidual
  by_cases ht : ((aget csp "report-uri").getD ((aget default_policy "report-uri").getD Val.none)).truthy = true
  · rw [if_pos ht]
    exact aget_aset_ne _ _ _ _ h1
  · rw [if_neg ht]

theorem partsBase_report_uri (csp : Policy) (ts : List Tok)
    (h : aget csp "report-uri" = some (Val.list ts)) (hts : ts ≠ []) :
    aget (compilePartsBase csp) "report-uri" = some (chJoin " " (ts.map pyStr)) := by
  unfold compilePartsBase
  rw [h]
  have htr : (Val.list ts).truthy = true := by
    cases ts with
    | nil => exact absurd rfl hts
    | cons a l => simp [Val.truthy]
  simp only [Option.getD_some, htr, if_true]
  rw [aget_aset_self]
  rfl

theorem compileParts_noNonce (csp : Policy) :
    compileParts csp Option.none = compilePartsBase csp := rfl

theorem compileParts_emptyNonce (csp : Policy) :
    compileParts csp (some "") = compilePartsBase csp := by
  unfold compileParts
  simp

theorem compileParts_preserve (csp : Policy) (n : String) (secs : List Tok) (k : String)
    (hs : aget csp "include_nonce_in" = some (Val.list secs))
    (hk : k ∉ secs.map pyStr) :
    aget (compileParts csp (some n)) k = aget (compilePartsBase csp) k := by
  unfold compileParts
  rw [hs]
  by_cases hn : n = ""
  · simp [hn]
  · simp only [Option.getD_some, if_neg hn]
    exact aget_foldl_preserve (nonceStep n) (fun s => s)
      (fun acc x j hj => nonceStep_ne n acc x j hj) ((Val.list secs).iter.map pyStr)
      (compilePartsBase csp) k (by simpa [Val.iter] using hk)

theorem compileParts_write (csp : Policy) (n : String) (secs : List Tok) (k : String)
    (hn : ¬ n = "")
    (hs : aget csp "include_nonce_in" = some (Val.list secs))
    (hnd : (secs.map pyStr).Nodup) (hk : k ∈ secs.map pyStr) :
    aget (compileParts csp (some n)) k =
      some (pyStrip (((aget (compilePartsBase csp) k).getD "") ++ " " ++
        ("'nonce-" ++ n ++ "'"))) := by
  unfold compileParts
  rw [hs]
  simp only [Option.getD_some, if_neg hn]
  have hw := aget_foldl_write (nonceStep n) (fun s => s)
    (fun acc x j hj => nonceStep_ne n acc x j hj)
    (fun a1 a2 x hh => by rw [nonceStep_self, nonceStep_self, hh])
    ((Val.list secs).iter.map pyStr) (compilePartsBase csp) k
    (by simpa [Val.iter] using hnd) (by simpa [Val.iter] using hk)
  rw [hw, nonceStep_self]

theorem hasKey_aset {α : Type} (d : List (String × α)) (k j : String) (v : α) :
    hasKey (aset d k v) j = (if j = k then true else hasKey d j) := by
  unfold hasKey
  by_cases h : j = k
  · rw [if_pos h, h, aget_aset_self]
    rfl
  · rw [if_neg h, aget_aset_ne _ _ _ _ h]

theorem append_step_ok_inv (t : String) (st st2 : AppendState) (hd : String × Policy)
    (hct : hasKey st.cfg t = false)
    (hok : _append_policies_step (some t) st hd = Except.ok st2) :
    st2.cfg = st.cfg ∧ ∀ j, j ≠ hd.1 → hasKey st2.pols j = hasKey st.pols j := by
  unfold _append_policies_step at hok
  by_cases h1 : hasKey st.pols hd.1 = true
  · simp only [h1, if_true] at hok
    injection hok with hh
    subst hh
    exact ⟨rfl, fun j _ => rfl⟩
  · simp only [Bool.not_eq_true] at h1
    simp only [h1, Bool.false_eq_true, if_false] at hok
    by_cases h2 : (hasKey st.cfg hd.1 && hd.2.isEmpty) = true
    · simp only [h2, if_true] at hok
      injection hok with hh
      subst hh
      refine ⟨rfl, fun j hj => ?_⟩
      simp [hasKey_aset, hj]
    · simp only [Bool.not_eq_true] at h2
      simp only [h2, Bool.false_eq_true, if_false] at hok
      by_cases h3 : hasKey st.cfg t = true
      · rw [h3] at hct
        cases hct
      · simp only [Bool.not_eq_true] at h3
        simp only [h3, Bool.false_eq_true, if_false] at hok
        cases hok

theorem append_error_aux (t key : String) (acsp : Policy) :
    ∀ (app : List (String × Policy)) (st : AppendState),
      (akeys app).Nodup → (key, acsp) ∈ app →
      hasKey st.pols key = false → hasKey st.cfg key = false → hasKey st.cfg t = false →
      ∃ e, app.foldlM (_append_policies_step (some t)) st = Except.error e := by
  intro app
  induction app with
  | nil => intro st _ hmem _ _ _; simp at hmem
  | cons hd rest ih =>
      intro st hnd hmem hp hck hct
      rcases List.mem_cons.mp hmem with heq | hrest
      · have hstep : _append_policies_step (some t) st hd =
            Except.error "TypeError: list indices must be integers or slices, not str" := by
          rw [← heq]
          unfold _append_policies_step
          simp only [hp, Bool.false_eq_true, if_false, hck, Bool.false_and, hct]
        refine ⟨"TypeError: list indices must be integers or slices, not str", ?_⟩
        rw [List.foldlM_cons, hstep]
        rfl
      · have hkey : key ∈ akeys rest := by
          unfold akeys
          exact List.mem_map_of_mem _ hrest
        have hhd : hd.1 ≠ key := by
          intro hh
          have hnd2 : (hd.1 :: akeys rest).Nodup := hnd
          exact (List.nodup_cons.mp hnd2).1 (by rw [hh]; exact hkey)
        cases hstep : _append_policies_step (some t) st hd with
        | error e =>
            refine ⟨e, ?_⟩
            rw [List.foldlM_cons, hstep]
            rfl
        | ok st2 =>
            have hinv := append_step_ok_inv t st st2 hd hct hstep
            have hnd2 : (akeys rest).Nodup := by
              rw [show akeys (hd :: rest) = hd.1 :: akeys rest from rfl] at hnd
              exact (List.nodup_cons.mp hnd).2
            have hp2 : hasKey st2.pols key = false := by
              rw [hinv.2 key (fun hh => hhd hh.symm)]
              exact hp
            have hck2 : hasKey st2.cfg key = false := by rw [hinv.1]; exact hck
            have hct2 : hasKey st2.cfg t = false := by rw [hinv.1]; exact hct
            rcases ih st2 hnd2 hrest hp2 hck2 hct2 with ⟨e, he⟩
            refine ⟨e, ?_⟩
            rw [List.foldlM_cons, hstep]
            simpa using he

theorem setting_to_directive_valid (s pfx : String) (v : PyOptVal) (r : String × PyOptVal)
    (h : setting_to_directive s pfx v = Except.ok r) : r.1 ∈ DIRECTIVES := by
  unfold setting_to_directive at h
  by_cases hc : DIRECTIVES.contains (settingDirName s pfx) = true
  · have hmem : settingDirName s pfx ∈ DIRECTIVES := by simpa using hc
    rw [if_pos hc] at h
    cases v with
    | no_value =>
        injection h with hh
        rw [← hh]
        exact hmem
    | val w =>
        cases w with
        | none =>
            injection h with hh
            rw [← hh]
            exact hmem
        | tok t =>
            cases t with
            | str x =>
                injection h with hh
                rw [← hh]
                exact hmem
            | b x =>
                injection h with hh
                rw [← hh]
                exact hmem
        | list ts =>
            injection h with hh
            rw [← hh]
            exact hmem
  · rw [if_neg hc] at h
    cases h

theorem setting_to_directive_asserts (s pfx : String) (v : PyOptVal)
    (h : settingDirName s pfx ∉ DIRECTIVES) :
    setting_to_directive s pfx v = Except.error "AssertionError" := by
  unfold setting_to_directive
  rw [if_neg (by simpa using h)]

theorem compileParts_preserve2 (csp : Policy) (n : String) (k : String)
    (hk : k ∉ (((aget csp "include_nonce_in").getD
      ((aget default_policy "include_nonce_in").getD Val.none)).iter.map pyStr)) :
    aget (compileParts csp (some n)) k = aget (compilePartsBase csp) k := by
  unfold compileParts
  by_cases hn : n = ""
  · simp [hn]
  · simp only [if_neg hn]
    exact aget_foldl_preserve (nonceStep n) (fun s => s)
      (fun acc x j hj => nonceStep_ne n acc x j hj) _ (compilePartsBase csp) k
      (by simpa using hk)

theorem orderLookup_mapM (pols : PolicyMap) (names : List String)
    (h : ∀ s ∈ names, (aget pols s).isSome = true) :
    (names.map OrderKey.name).mapM (orderLookup pols) =
      Except.ok (names.map (fun s => (aget pols s).getD [])) := by
  induction names with
  | nil => rfl
  | cons a l ih =>
      have ha := h a (List.mem_cons_self a l)
      cases hv : aget pols a with
      | none => rw [hv] at ha; cases ha
      | some p =>
          have ih2 := ih (fun s hs => h s (List.mem_cons_of_mem a hs))
          rw [List.map_cons, List.map_cons, List.mapM_cons]
          simp only [orderLookup, hv]
          rw [ih2]
          simp [hv]
          rfl

/-! Claim theorems. -/

/-- C1: the claim states that `build_policy` and `_compile_policy` never mutate or
alias the caller-supplied `config`, `update` and `replace` mappings, in particular
that the append pass clones a template policy out of `config`.  The code violates
this and the claim matches the intent of the code (the comment on
src/csp/utils.py line 86 reads "don't mutate config as it could be from settings",
and the spec requires copy-on-merge), so this records the bug: on
src/csp/utils.py line 126 `_append_policies` binds `csp = config[append_template]`
without a copy and then `_update_policy(csp, append_csp)` writes into the policy
held by `config`.  Composing `config = {'default': {'default-src': ('a',)}}` with
`update = {'extra': {'img-src': ('x',)}}` returns with `config['default']` now also
holding `img-src: ('x',)`: the final config state differs from the one passed in. -/
theorem c1_build_policy_mutates_config :
    build_policy_st
        (some (ConfigArg.named [("default", [("default-src", Val.list [Tok.str "a"])])]))
        (ConfigArg.named [("extra", [("img-src", Val.list [Tok.str "x"])])])
        ConfigArg.none Option.none Option.none
      = Except.ok ([("default-src a", Val.tok (Tok.b false)),
                    ("default-src a; img-src x", Val.tok (Tok.b false))],
          [("default", [("default-src", Val.list [Tok.str "a"]),
                        ("img-src", Val.list [Tok.str "x"])])]) ∧
    ([("default", [("default-src", Val.list [Tok.str "a"]),
                   ("img-src", Val.list [Tok.str "x"])])] : PolicyMap)
      ≠ [("default", [("default-src", Val.list [Tok.str "a"])])] :=
  ⟨rfl, by decide⟩

/-- C2: in the update pass, a non-unset update value for a content directive is
appended after the existing source list (order preserved, no deduplication — base
`['a']` and update `['b']` give exactly `['a','b']`), a key absent from the base
(or bound to `None`) takes the update value, a pseudo-directive value overwrites
outright, and an unset (`None`) update value is skipped. -/
theorem c2_update_pass (csp upd : Policy) (k : String) (v : Val)
    (hnd : (akeys upd).Nodup) (hv : aget upd k = some v) :
    (v = Val.none → aget (_update_policy csp upd) k = aget csp k) ∧
    (v ≠ Val.none → k ∈ PSEUDO_DIRECTIVES → aget (_update_policy csp upd) k = some v) ∧
    (v ≠ Val.none → k ∉ PSEUDO_DIRECTIVES →
      ∀ old : List Tok, aget csp k = some (Val.list old) →
        aget (_update_policy csp upd) k = some (Val.list (old ++ v.elems))) ∧
    (v ≠ Val.none → k ∉ PSEUDO_DIRECTIVES → aget csp k = Option.none →
      aget (_update_policy csp upd) k = some (Val.list v.elems)) := by
  have hc : aget (_update_policy csp upd) k = aget (_update_policy_step csp k v) k := by
    have hc0 := update_aget csp upd k hnd
    rw [hv] at hc0
    exact hc0
  refine ⟨?_, ?_, ?_, ?_⟩
  · intro h0
    rw [hc, h0]
    unfold _update_policy_step
    simp
  · intro h0 h1
    rw [hc]
    unfold _update_policy_step
    simp [h0, h1, aget_aset_self]
  · intro h0 h1 old hold
    rw [hc]
    unfold _update_policy_step
    simp [h0, h1, hold, aget_aset_self, Val.elems]
  · intro h0 h1 h2
    rw [hc]
    unfold _update_policy_step
    simp [h0, h1, h2, aget_aset_self]

/-- C2 witness: base `['a']`, update `['b']`, composed value exactly `['a','b']`. -/
theorem c2_update_pass_witness :
    aget (_update_policy [("default-src", Val.list [Tok.str "a"])]
      [("default-src", Val.list [Tok.str "b"])]) "default-src"
      = some (Val.list [Tok.str "a", Tok.str "b"]) := by
  have h := (c2_update_pass [("default-src", Val.list [Tok.str "a"])]
    [("default-src", Val.list [Tok.str "b"])] "default-src" (Val.list [Tok.str "b"])
    (by decide) rfl).2.2.1 (by decide) (by decide) [Tok.str "a"] rfl
  exact h.trans (by rfl)

/-- C3: the replace pass keeps exactly the keys of either mapping whose chosen
value is not unset, the replace value winning over the base value for a shared
key; the kept value is the chosen value itself for a pseudo-directive and its
normalized source list otherwise (so `replace = {'default-src': ['x']}` yields
exactly `['x']`). -/
theorem c3_replace_pass (csp rep : Policy) (k : String)
    (h1 : (akeys csp).Nodup) (h2 : (akeys rep).Nodup) :
    (∀ v, aget rep k = some v → replaceChoose csp rep k = v) ∧
    (aget rep k = Option.none → replaceChoose csp rep k = (aget csp k).getD Val.none) ∧
    (hasKey (_replace_policy csp rep) k = true ↔
      ((k ∈ akeys csp ∨ k ∈ akeys rep) ∧ replaceChoose csp rep k ≠ Val.none)) ∧
    ((k ∈ akeys csp ∨ k ∈ akeys rep) → replaceChoose csp rep k ≠ Val.none →
      aget (_replace_policy csp rep) k =
        (if k ∈ PSEUDO_DIRECTIVES then some (replaceChoose csp rep k)
         else some (Val.list (replaceChoose csp rep k).elems))) := by
  have hra := replace_aget csp rep k h1 h2
  refine ⟨?_, ?_, ?_, ?_⟩
  · intro v hv
    unfold replaceChoose
    rw [hv]
  · intro hv
    unfold replaceChoose
    rw [hv]
  · unfold hasKey
    rw [hra]
    by_cases hk : k ∈ replaceKeys csp rep
    · rw [if_pos hk]
      by_cases hv : replaceChoose csp rep k = Val.none
      · simp [hv, (mem_replaceKeys csp rep k).mp hk]
      · by_cases hp : k ∈ PSEUDO_DIRECTIVES <;>
          simp [hv, hp, (mem_replaceKeys csp rep k).mp hk]
    · rw [if_neg hk]
      have hno : ¬ (k ∈ akeys csp ∨ k ∈ akeys rep) :=
        fun hm => hk ((mem_replaceKeys csp rep k).mpr hm)
      simp [hno]
  · intro hmem hv
    rw [hra, if_pos ((mem_replaceKeys csp rep k).mpr hmem), if_neg hv]

/-- C3 witness: composing `replace = {'default-src': ['x']}` against a base holding
`default-src` yields exactly `['x']` for that directive. -/
theorem c3_replace_pass_witness :
    aget (_replace_policy [("default-src", Val.list [Tok.str "a"])]
      [("default-src", Val.list [Tok.str "x"])]) "default-src"
      = some (Val.list [Tok.str "x"]) := by
  have h := (c3_replace_pass [("default-src", Val.list [Tok.str "a"])]
    [("default-src", Val.list [Tok.str "x"])] "default-src" (by decide) (by decide)).2.2.2
    (Or.inl (by decide)) (by decide)
  exact h.trans (by rfl)

/-- C4 counterexample: the claim states that a directive key outside the registry
fails fast at composition time and is never carried into the compiled header.  In
the code `build_policy` performs no registry validation: the unknown key `bogus`
composes without error and its text appears in the returned header string. -/
theorem c4_unknown_directive_passes_through :
    build_policy (some (ConfigArg.named [("default",
        [("default-src", Val.list [Tok.str "x"]), ("bogus", Val.list [Tok.str "y"])])]))
      ConfigArg.none ConfigArg.none Option.none Option.none
      = Except.ok [("default-src x; bogus y", Val.tok (Tok.b false))] ∧
    "bogus" ∉ DIRECTIVES :=
  ⟨rfl, by decide⟩

/-- C4 amended: registry validation happens only on the keyword/setting
translation path: `setting_to_directive` yields a directive name inside the
registry whenever it succeeds, and raises an AssertionError on a name outside it;
`build_policy` itself does not validate the keys of `config`, `update` or
`replace`, and an unknown key is carried (not dropped, not rejected) into the
compiled header string, as the unknown key `made-up` supplied through an update
delta shows. -/
theorem c4_amended_registry_validation :
    (∀ (s pfx : String) (v : PyOptVal) (r : String × PyOptVal),
      setting_to_directive s pfx v = Except.ok r → r.1 ∈ DIRECTIVES) ∧
    (∀ (s pfx : String) (v : PyOptVal), settingDirName s pfx ∉ DIRECTIVES →
      setting_to_directive s pfx v = Except.error "AssertionError") ∧
    (build_policy (some (ConfigArg.named [("default", [])]))
        (ConfigArg.named [("default", [("made-up", Val.list [Tok.str "z"])])])
        ConfigArg.none Option.none Option.none
      = Except.ok [("made-up z", Val.tok (Tok.b false))] ∧
     "made-up" ∉ DIRECTIVES) :=
  ⟨setting_to_directive_valid, setting_to_directive_asserts, rfl, by decide⟩

/-- C4 amended witness: the successful translation of `CSP_DEFAULT_SRC` lands in
the registry. -/
theorem c4_amended_registry_validation_witness : "default-src" ∈ DIRECTIVES :=
  c4_amended_registry_validation.1 "CSP_DEFAULT_SRC" "CSP_" PyOptVal.no_value
    ("default-src", PyOptVal.no_value) rfl

/-- C5 counterexample: the claim states that a positional index in `order` selects
the policy at that position.  The composed collection is an OrderedDict keyed by
the policy names, and dict subscripting is key lookup, so the index `0` raises
KeyError even though a policy sits at position 0. -/
theorem c5_positional_index_keyerror :
    build_policy (some (ConfigArg.named [("default", [("default-src", Val.list [Tok.str "x"])])]))
      ConfigArg.none ConfigArg.none Option.none (some [OrderKey.idx 0])
      = Except.error "KeyError" := rfl

/-- C5 amended: an `order` entry selects by dict-key lookup: a name present in the
composed collection selects exactly its policy, a name absent raises KeyError, and
an integer entry always raises KeyError (positional selection is not supported);
when every entry is a present name the emission order is exactly the given
sequence, with nothing silently skipped. -/
theorem c5_amended_order_lookup :
    (∀ (pols : PolicyMap) (s : String) (p : Policy), aget pols s = some p →
      orderLookup pols (OrderKey.name s) = Except.ok p) ∧
    (∀ (pols : PolicyMap) (s : String), aget pols s = Option.none →
      orderLookup pols (OrderKey.name s) = Except.error ("KeyError: " ++ s)) ∧
    (∀ (pols : PolicyMap) (n : Nat),
      orderLookup pols (OrderKey.idx n) = Except.error "KeyError") ∧
    (∀ (pols : PolicyMap) (names : List String),
      (∀ s ∈ names, (aget pols s).isSome = true) →
      (names.map OrderKey.name).mapM (orderLookup pols) =
        Except.ok (names.map (fun s => (aget pols s).getD []))) ∧
    (build_policy (some (ConfigArg.named
        [("a", [("default-src", Val.list [Tok.str "x"])]),
         ("b", [("style-src", Val.list [Tok.str "y"])])]))
      ConfigArg.none ConfigArg.none Option.none
      (some [OrderKey.name "b", OrderKey.name "a"])
      = Except.ok [("style-src y", Val.tok (Tok.b false)),
                   ("default-src x", Val.tok (Tok.b false))]) := by
  refine ⟨?_, ?_, fun pols n => rfl, orderLookup_mapM, rfl⟩
  · intro pols s p h
    simp [orderLookup, h]
  · intro pols s h
    simp [orderLookup, h]

/-- C5 amended witness: a present name selects its policy. -/
theorem c5_amended_order_lookup_witness :
    orderLookup [("default", [("default-src", Val.list [Tok.str "x"])])]
      (OrderKey.name "default")
      = Except.ok [("default-src", Val.list [Tok.str "x"])] :=
  c5_amended_order_lookup.1 _ "default" _ rfl

/-- C6: in the append pass, when an update-delta key is absent from both the
produced collection and the base config and the configured append-template name
does not resolve to a policy of the config, composition fails with an error
instead of silently producing an empty policy for that key.  (The error the code
raises is the TypeError from indexing `defaults.POLICIES` — a list — with the
template name; it is raised for every template name that is not a config key, so
the failure the claim requires always happens.) -/
theorem c6_unresolvable_template_errors (pols app cfg : PolicyMap) (t key : String)
    (acsp : Policy) (hnd : (akeys app).Nodup) (hmem : (key, acsp) ∈ app)
    (hp : hasKey pols key = false) (hck : hasKey cfg key = false)
    (hct : hasKey cfg t = false) :
    ∃ e, _append_policies pols app cfg (some t) = Except.error e :=
  append_error_aux t key acsp app (AppendState.mk pols cfg []) hnd hmem hp hck hct

/-- C6 witness: appending `x` with no `default` template policy in the config
fails. -/
theorem c6_unresolvable_template_errors_witness :
    ∃ e, _append_policies [] [("x", [("img-src", Val.list [Tok.str "y"])])] []
      (some "default") = Except.error e :=
  c6_unresolvable_template_errors [] [("x", [("img-src", Val.list [Tok.str "y"])])] []
    "default" "x" [("img-src", Val.list [Tok.str "y"])]
    (by decide) (List.mem_cons_self _ _) rfl rfl rfl

/-- C7 counterexample: the claim states that the re-inserted `report-uri` value is
never subject to nonce injection, regardless of the contents of
`include_nonce_in`.  The re-insertion happens after the main loop but before the
nonce loop, so listing `report-uri` in `include_nonce_in` appends the nonce token
to the report-uri segment. -/
theorem c7_nonce_hits_report_uri :
    _compile_policy [("report-uri", Val.list [Tok.str "u"]),
        ("include_nonce_in", Val.list [Tok.str "report-uri"])] (some "abc")
      = ("report-uri u 'nonce-abc'", Val.tok (Tok.b false)) := rfl

/-- C7 amended: for a policy with a non-empty `report-uri` source list, a
non-empty nonce and an `include_nonce_in` list that does not itself name
`report-uri`, the compiled report-uri part is exactly the space-joined stringified
tokens, with no nonce token appended; the header string is the join of these
parts. -/
theorem c7_amended_report_uri_segment (csp : Policy) (ts secs : List Tok) (n : String)
    (hru : aget csp "report-uri" = some (Val.list ts)) (hts : ts ≠ [])
    (hs : aget csp "include_nonce_in" = some (Val.list secs))
    (hn : n ≠ "") (hsec : "report-uri" ∉ secs.map pyStr) :
    aget (compileParts csp (some n)) "report-uri" = some (chJoin " " (ts.map pyStr)) ∧
    (_compile_policy csp (some n)).1 =
      chJoin "; " ((compileParts csp (some n)).map (fun kv => pyStrip (kv.1 ++ " " ++ kv.2))) := by
  refine ⟨?_, rfl⟩
  rw [compileParts_preserve csp n secs "report-uri" hs hsec]
  exact partsBase_report_uri csp ts hru hts

/-- C7 amended witness: with `include_nonce_in = ['script-src']` the report-uri
part stays exactly the joined tokens. -/
theorem c7_amended_report_uri_segment_witness :
    aget (compileParts [("report-uri", Val.list [Tok.str "u"]),
        ("include_nonce_in", Val.list [Tok.str "script-src"])] (some "abc")) "report-uri"
      = some "u" := by
  have h := (c7_amended_report_uri_segment
    [("report-uri", Val.list [Tok.str "u"]), ("include_nonce_in", Val.list [Tok.str "script-src"])]
    [Tok.str "u"] [Tok.str "script-src"] "abc" rfl (by decide) rfl (by decide) (by decide)).1
  exact h.trans (by rfl)

/-- C8 counterexample: the claim states that a directive with flag value `False`
contributes nothing to the output under any key, and that a `True` flag renders as
a bare name.  Two compile paths violate it: a `report-uri` value of `(False,)`
bypasses the flag handling (the tokens are stringified, so `report-uri False`
appears), and nonce injection re-introduces a directive that the `False` flag had
dropped. -/
theorem c8_flag_false_appears :
    _compile_policy [("report-uri", Val.list [Tok.b false])] Option.none
      = ("report-uri False", Val.tok (Tok.b false)) ∧
    _compile_policy [("script-src", Val.list [Tok.b false]),
        ("include_nonce_in", Val.list [Tok.str "script-src"])] (some "abc")
      = ("script-src 'nonce-abc'", Val.tok (Tok.b false)) :=
  ⟨rfl, rfl⟩

/-- C8 amended: for a directive other than the three control keys
(`report-uri`, `report_only`, `include_nonce_in`) that the nonce-injection step
does not target, a value whose first element is the flag `False` leaves no part
under that key, and one whose first element is the flag `True` renders as the
empty value (so the joined segment is the bare name); the header string is the
join of the parts with `"; "`. -/
theorem c8_amended_flag_rendering (csp : Policy) (nonce : Option String) (k : String)
    (r : List Tok) (hnd : (akeys csp).Nodup)
    (hk1 : k ≠ "report-uri") (hk2 : k ≠ "report_only") (hk3 : k ≠ "include_nonce_in")
    (hsafe : ∀ n, nonce = some n → n ≠ "" →
      k ∉ (((aget csp "include_nonce_in").getD
        ((aget default_policy "include_nonce_in").getD Val.none)).iter.map pyStr)) :
    (aget csp k = some (Val.list (Tok.b false :: r)) →
      aget (compileParts csp nonce) k = Option.none) ∧
    (aget csp k = some (Val.list (Tok.b true :: r)) →
      aget (compileParts csp nonce) k = some "") ∧
    (_compile_policy csp nonce).1 =
      chJoin "; " ((compileParts csp nonce).map (fun kv => pyStrip (kv.1 ++ " " ++ kv.2))) := by
  have hred : aget (compileParts csp nonce) k = aget (compilePartsBase csp) k := by
    cases nonce with
    | none => rw [compileParts_noNonce]
    | some n =>
        by_cases hn : n = ""
        · rw [hn, compileParts_emptyNonce]
        · exact compileParts_preserve2 csp n k (hsafe n rfl hn)
  have hbase : aget (compilePartsBase csp) k =
      aget (compileMainParts (compileResidual csp)) k := partsBase_other csp k hk1
  have hres : aget (compileResidual csp) k = aget csp k :=
    aget_compileResidual csp k hk1 hk2 hk3
  have hmain := mainParts_aget (compileResidual csp) k (residual_nodup csp hnd)
  refine ⟨?_, ?_, rfl⟩
  · intro hk
    rw [hred, hbase, hmain, hres, hk]
    rfl
  · intro hk
    rw [hred, hbase, hmain, hres, hk]
    rfl

/-- C8 amended witness: without a nonce, a `False` flag leaves no part and a
`True` flag renders as the empty value. -/
theorem c8_amended_flag_rendering_witness :
    aget (compileParts [("img-src", Val.list [Tok.b false]),
        ("style-src", Val.list [Tok.b true])] Option.none) "img-src" = Option.none ∧
    aget (compileParts [("img-src", Val.list [Tok.b false]),
        ("style-src", Val.list [Tok.b true])] Option.none) "style-src" = some "" := by
  constructor
  · exact (c8_amended_flag_rendering
      [("img-src", Val.list [Tok.b false]), ("style-src", Val.list [Tok.b true])]
      Option.none "img-src" [] (by decide) (by decide) (by decide) (by decide)
      (fun n hn _ => nomatch hn)).1 rfl
  · exact (c8_amended_flag_rendering
      [("img-src", Val.list [Tok.b false]), ("style-src", Val.list [Tok.b true])]
      Option.none "style-src" [] (by decide) (by decide) (by decide) (by decide)
      (fun n hn _ => nomatch hn)).2.1 rfl

/-- C9: nonce injection is a pure suffix operation: for a non-empty nonce, each
name of the `include_nonce_in` list gets the quoted nonce token appended to its
current rendered value (the empty string when the directive is absent) with
surrounding whitespace stripped; no injection happens when the nonce is absent or
empty; and the concrete example compiles to `script-src 'self' 'nonce-abc'`. -/
theorem c9_nonce_suffix (csp : Policy) (n k : String) (secs : List Tok)
    (hn : n ≠ "") (hs : aget csp "include_nonce_in" = some (Val.list secs))
    (hnd : (secs.map pyStr).Nodup) (hk : k ∈ secs.map pyStr) :
    aget (compileParts csp (some n)) k =
      some (pyStrip (((aget (compilePartsBase csp) k).getD "") ++ " " ++
        ("'nonce-" ++ n ++ "'"))) ∧
    compileParts csp Option.none = compilePartsBase csp ∧
    compileParts csp (some "") = compilePartsBase csp ∧
    _compile_policy [("script-src", Val.list [Tok.str "'self'"]),
        ("include_nonce_in", Val.list [Tok.str "script-src"])] (some "abc")
      = ("script-src 'self' 'nonce-abc'", Val.tok (Tok.b false)) :=
  ⟨compileParts_write csp n secs k hn hs hnd hk, compileParts_noNonce csp,
   compileParts_emptyNonce csp, rfl⟩

/-- C9 witness: `script-src` `['self']` with nonce `abc` renders as
`'self' 'nonce-abc'`. -/
theorem c9_nonce_suffix_witness :
    aget (compileParts [("script-src", Val.list [Tok.str "'self'"]),
        ("include_nonce_in", Val.list [Tok.str "script-src"])] (some "abc")) "script-src"
      = some "'self' 'nonce-abc'" := by
  have h := (c9_nonce_suffix
    [("script-src", Val.list [Tok.str "'self'"]), ("include_nonce_in", Val.list [Tok.str "script-src"])]
    "abc" "script-src" [Tok.str "script-src"] (by decide) rfl (by decide) (by decide)).1
  exact h.trans (by rfl)

/-- C10: the setting-name mapping is a round trip on the registry:
`directive_to_setting` prefixes `CSP_`, upper-cases and replaces hyphens with
underscores, `setting_to_directive` strips the prefix, lower-cases and restores
hyphens exactly for content directives while pseudo-directive names keep their
underscores, and composing the two is the identity on every directive of the
registry. -/
theorem c10_setting_roundtrip (d : String) (hd : d ∈ DIRECTIVES) :
    setting_to_directive (directive_to_setting d "CSP_") "CSP_" PyOptVal.no_value
      = Except.ok (d, PyOptVal.no_value) := by
  fin_cases hd <;> rfl

/-- C10 witness: the round trip at `default-src`. -/
theorem c10_setting_roundtrip_witness :
    setting_to_directive (directive_to_setting "default-src" "CSP_") "CSP_"
      PyOptVal.no_value = Except.ok ("default-src", PyOptVal.no_value) :=
  c10_setting_roundtrip "default-src" (by decide)
